import Mathlib

/-!
Verification development for the workout-tracker history view
(src/web/js/history.js).  The file shallowly embeds the data model and the
two operations of the view, `loadWorkouts` and `formatDate`, and proves the
specified properties about them.

Modelling conventions:
* JavaScript numbers are modelled as rationals (`ℚ`); counts are `ℕ`.
* The DOM is modelled by the two elements the script touches: the value of
  the `userFilter` control (`Option String`, `none` meaning the element is
  absent) and the presence of the `workoutList` region.  Successive
  assignments to `workoutList.innerHTML` are recorded as a list of strings,
  in program order.
* The single `fetch` is modelled by an environment-chosen outcome: a
  rejected promise, or a response carrying an HTTP status and a body parse
  result.  `response.json()` either fails (non-JSON body) or yields a JSON
  value: an array (whose elements are well-shaped workout records or
  malformed values whose rendering throws), a string (whose length member
  drives the check at line 33), null (reading `.length` on it throws), or
  another JSON value — a number, a boolean, or an object without a length
  member — on which `.length` is `undefined` and `.map` throws.
* An exception that escapes `loadWorkouts` (rejecting its promise) is
  recorded by the `faulted` flag of the outcome.
-/

/-- ExerciseSummary as received from the network: aggregate stats for one
exercise within a workout (section 3 of the data model). -/
structure Exercise where
  name : String
  num_sets : ℕ
  max_weight : ℚ
  total_reps : ℕ
deriving DecidableEq, Repr

/-- Workout record as received from the network: a date string, an exercise
count, the aggregate volume, and the ordered exercise list. -/
structure Workout where
  workout_date : String
  num_exercises : ℕ
  total_volume : ℚ
  exercises : List Exercise
deriving DecidableEq, Repr

/-- Model of JavaScript `Math.round`: round half toward positive infinity,
`⌊q + 1/2⌋`, computed on the numerator and denominator by integer floor
division. -/
def jsRound (q : ℚ) : ℤ := Int.fdiv (2 * q.num + (q.den : ℤ)) (2 * (q.den : ℤ))

/-- Decimal digits of the fraction `r / d` (with `r < d`), produced by long
division, most significant first; `fuel` bounds the number of digits
(JavaScript prints at most 17 significant decimal digits for a float, so 20
digits suffice for every number the platform can print). -/
def fracDigits : ℕ → ℕ → ℕ → String
  | 0, _, _ => ""
  | fuel + 1, r, d =>
    if r = 0 then ""
    else toString (r * 10 / d) ++ fracDigits fuel (r * 10 % d) d

/-- Model of JavaScript number-to-string conversion (as performed by
template-literal interpolation) for the finite decimals the platform
prints: optional sign, integer part, and the long-division digits of the
fractional part when it is nonzero. -/
def ratToJsStr (q : ℚ) : String :=
  let n := q.num.natAbs
  let d := q.den
  (if q.num < 0 then "-" else "") ++ toString (n / d) ++
    (if n % d = 0 then "" else "." ++ fracDigits 20 (n % d) d)

/-- Leap-year test of the proleptic Gregorian calendar. -/
def isLeap (y : ℕ) : Bool := (y % 4 == 0 && y % 100 != 0) || (y % 400 == 0)

/-- Number of days in a month of the Gregorian calendar (month is 1-12). -/
def daysInMonth (y m : ℕ) : ℕ :=
  if m = 2 then (if isLeap y then 29 else 28)
  else if m = 4 ∨ m = 6 ∨ m = 9 ∨ m = 11 then 30
  else 31

/-- Days elapsed since 1970-01-01 of the civil date `y-m-d` (proleptic
Gregorian calendar, days-from-civil algorithm). -/
def daysFromCivil (y m d : ℤ) : ℤ :=
  let y2 := if m ≤ 2 then y - 1 else y
  let era := Int.fdiv y2 400
  let yoe := y2 - era * 400
  let mp := (m + 9).emod 12
  let doy := Int.fdiv (153 * mp + 2) 5 + d - 1
  let doe := yoe * 365 + Int.fdiv yoe 4 - Int.fdiv yoe 100 + doy
  era * 146097 + doe - 719468

/-- Day of week of a civil date, 0 = Sunday … 6 = Saturday (1970-01-01 was
a Thursday). -/
def dayOfWeek (y m d : ℕ) : ℕ :=
  ((daysFromCivil (y : ℤ) (m : ℤ) (d : ℤ) + 4).emod 7).toNat

/-- Abbreviated en-US weekday names, indexed by `dayOfWeek`. -/
def weekdayShort (w : ℕ) : String :=
  (["Sun", "Mon", "Tue", "Wed", "Thu", "Fri", "Sat"].getD w "")

/-- Abbreviated en-US month names, indexed 1-12. -/
def monthShort (m : ℕ) : String :=
  (["Jan", "Feb", "Mar", "Apr", "May", "Jun", "Jul", "Aug", "Sep", "Oct",
    "Nov", "Dec"].getD (m - 1) "")

/-- Numeric value of a decimal digit character. -/
def digitVal (c : Char) : ℕ := c.toNat - 48

/-- Modelled from the spec: the platform `new Date(string)` parser, which
is not part of this repository.  The model covers ISO calendar-date
strings `YYYY-MM-DD`; a string of that shape with an in-range month and a
day valid for that month parses to the civil date `(y, m, d)`, and every
other input is an invalid date (`none`). -/
def jsDateParse (s : String) : Option (ℕ × ℕ × ℕ) :=
  match s.data with
  | [y1, y2, y3, y4, '-', m1, m2, '-', d1, d2] =>
    if y1.isDigit ∧ y2.isDigit ∧ y3.isDigit ∧ y4.isDigit ∧ m1.isDigit ∧
        m2.isDigit ∧ d1.isDigit ∧ d2.isDigit then
      let y := ((digitVal y1 * 10 + digitVal y2) * 10 + digitVal y3) * 10 +
        digitVal y4
      let m := digitVal m1 * 10 + digitVal m2
      let d := digitVal d1 * 10 + digitVal d2
      if 1 ≤ m ∧ m ≤ 12 ∧ 1 ≤ d ∧ d ≤ daysInMonth y m then
        some (y, m, d)
      else none
    else none
  | _ => none

/-- Modelled from the spec: the platform en-US locale date formatting with
abbreviated weekday, abbreviated month, numeric day and full numeric year,
as selected by the options object at src/web/js/history.js lines 71-76
(e.g. `Fri, Mar 15, 2024`).  A date-only ISO string is parsed at UTC and
the environment timezone is taken as UTC, so the displayed civil date is
the parsed one. -/
def formatCivil (y m d : ℕ) : String :=
  weekdayShort (dayOfWeek y m d) ++ ", " ++ monthShort m ++ " " ++
    toString d ++ ", " ++ toString y

/-- Embedding of `formatDate` (src/web/js/history.js lines 69-77): parse
the string with the platform date parser and format the result; an invalid
date formats to the literal `Invalid Date`. -/
def formatDate (dateString : String) : String :=
  match jsDateParse dateString with
  | none => "Invalid Date"
  | some (y, m, d) => formatCivil y m d

/-- Concatenation of a list of strings in order, the model of
JavaScript `array.join` with the empty separator. -/
def concatAll : List String → String
  | [] => ""
  | s :: rest => s ++ concatAll rest

/-- Literal text of the exercise template (line 48-55) before
`${ex.name}`. -/
def exPart1 : String :=
  "\n                        <div class=\"exercise-tag\">\n                            <strong>"

/-- Literal text of the exercise template between `${ex.name}` and
`${ex.num_sets}`. -/
def exPart2 : String :=
  "</strong>\n                            <span class=\"exercise-details\">\n                                "

/-- Literal text of the exercise template between `${ex.num_sets}` and
`${ex.max_weight}`. -/
def exPart3 : String := " sets • "

/-- Literal text of the exercise template between `${ex.max_weight}` and
`${ex.total_reps}`. -/
def exPart4 : String := " lbs max • "

/-- Literal text of the exercise template after `${ex.total_reps}`. -/
def exPart5 : String :=
  " total reps\n                            </span>\n                        </div>\n                    "

/-- Embedding of the inner template literal of the renderer (lines 48-55):
one exercise tag, with each interpolated field converted to its string
form and inserted verbatim. -/
def renderExercise (ex : Exercise) : String :=
  exPart1 ++ ex.name ++ exPart2 ++ toString ex.num_sets ++ exPart3 ++
    ratToJsStr ex.max_weight ++ exPart4 ++ toString ex.total_reps ++ exPart5

/-- Literal text of the card template (lines 39-58) before the formatted
date. -/
def cardPart1 : String :=
  "\n            <div class=\"workout-card\">\n                <div class=\"workout-header\">\n                    <h3>"

/-- Literal text of the card template between the formatted date and
`${workout.num_exercises}`. -/
def cardPart2 : String :=
  "</h3>\n                    <span class=\"workout-stats\">\n                        "

/-- Literal text of the card template between `${workout.num_exercises}`
and the rounded volume. -/
def cardPart3 : String := " exercise(s) • "

/-- Literal text of the card template between the rounded volume and the
joined exercise tags. -/
def cardPart4 : String :=
  " lbs\n                    </span>\n                </div>\n                <div class=\"workout-exercises\">\n                    "

/-- Literal text of the card template after the joined exercise tags. -/
def cardPart5 : String :=
  "\n                </div>\n            </div>\n        "

/-- Embedding of the outer template literal of the renderer (lines 39-58):
one workout card, containing the formatted date, the exercise count, the
volume rounded by `Math.round`, and the joined exercise tags. -/
def renderWorkout (w : Workout) : String :=
  cardPart1 ++ formatDate w.workout_date ++ cardPart2 ++
    toString w.num_exercises ++ cardPart3 ++ toString (jsRound w.total_volume) ++
    cardPart4 ++ concatAll (w.exercises.map renderExercise) ++ cardPart5

/-- Markup of the whole rendered workout list: the cards of the workouts
in input order, joined with the empty separator (line 58). -/
def renderAll (ws : List Workout) : String :=
  concatAll (ws.map renderWorkout)

/-- Loading placeholder written at line 19. -/
def loadingHtml : String := "<p>Loading workouts...</p>"

/-- Empty-state message written at line 34. -/
def emptyHtml : String := "<p>No workouts found. Start logging!</p>"

/-- Error message written at line 64. -/
def errorHtml : String :=
  "<p class=\"error\">Error loading workouts. Please try again.</p>"

/-- Base endpoint URL (line 23). -/
def baseUrl : String := "http://localhost:8000/workouts"

/-- Element of a JSON array response.  A well-formed element carries the
Workout shape of section 3 of the data model; a malformed element is a
JSON value that is null or whose exercises member is not an array, so
that the member access or the inner `.map` call at line 48 throws a
TypeError while the outer `.map` at line 39 renders it. -/
inductive ArrElem where
  | ok : Workout → ArrElem
  | malformed : ArrElem
deriving DecidableEq

/-- Workouts of an array response all of whose elements are well-formed;
`none` when some element is malformed, in which case rendering the array
throws before anything is assigned to the display region. -/
def allOk : List ArrElem → Option (List Workout)
  | [] => some []
  | .ok w :: rest => (allOk rest).map (fun ws => w :: ws)
  | .malformed :: _ => none

/-- Parse result of the response body, the outcome of `response.json()`.
`parseFail`: the body is not JSON and the promise rejects.  `jsonArr`: a
JSON array, whose elements may be well-formed records or malformed values.
`jsonStr`: a JSON string — its `.length` member is the string length, so
the empty string passes the `=== 0` check at line 33 and renders the
empty state, while any other string fails the check and throws at the
`.map` call at line 39.  `jsonNull`: JSON null — reading `.length` at
line 33 throws.  `jsonOther`: a number, a boolean, or an object without a
length member — `.length` is `undefined`, the `=== 0` check is false and
`.map` at line 39 throws a TypeError. -/
inductive Body where
  | parseFail : Body
  | jsonArr : List ArrElem → Body
  | jsonStr : String → Body
  | jsonNull : Body
  | jsonOther : Body
deriving DecidableEq

/-- Outcome of the single `fetch` at line 29: the promise rejects (network
fault), or it resolves to a response with an HTTP status code and a body. -/
inductive FetchOutcome where
  | reject : FetchOutcome
  | resolve : ℕ → Body → FetchOutcome
deriving DecidableEq

/-- Environment of one invocation of `loadWorkouts`: the `userFilter`
element (its current value, or `none` when the element is absent), the
presence of the `workoutList` element, the content the display region held
before the invocation, and the outcome the network gives the one fetch. -/
structure Env where
  userFilter : Option String
  workoutListExists : Bool
  priorDisplay : String
  fetchOutcome : FetchOutcome

/-- Observable outcome of one invocation of `loadWorkouts`: the successive
values assigned to `workoutList.innerHTML` in program order, the URL given
to `fetch` if the call was reached, whether an exception escaped the
function (rejecting its promise), whether the catch block logged an error,
and the count logged on the success path. -/
structure LoadOutcome where
  writes : List String
  requested : Option String
  faulted : Bool
  errorLogged : Bool
  infoLogged : Option ℕ
deriving DecidableEq, Repr

/-- Embedding of `loadWorkouts` (src/web/js/history.js lines 13-66).
Line 15 reads the filter value: on a missing `userFilter` element the
member access throws before anything else happens.  Lines 18-19 look up
`workoutList` and write the loading placeholder: on a missing element the
assignment throws; both faults occur before the `try` and escape the
function.  Inside the `try`, the URL appends `user_id` exactly when the
filter string is truthy (non-empty).  A rejected fetch or a non-JSON body
reaches the catch block, which logs the error and writes the error
message; so do a null body (line 33 throws), a non-array non-string body
(line 39 throws), a non-empty string body (line 39 throws) and an array
with a malformed element (the render throws before the assignment at
line 39 happens).  A body whose `.length` is `0` — the empty array or the
empty string — writes the empty-state message and returns; an array of
well-formed records writes the joined cards and logs the count. -/
def loadWorkouts (env : Env) : LoadOutcome :=
  match env.userFilter with
  | none => ⟨[], none, true, false, none⟩
  | some userFilter =>
    if env.workoutListExists = false then ⟨[], none, true, false, none⟩
    else
      let url := if userFilter ≠ "" then baseUrl ++ "?user_id=" ++ userFilter
        else baseUrl
      match env.fetchOutcome with
      | .reject => ⟨[loadingHtml, errorHtml], some url, false, true, none⟩
      | .resolve _ .parseFail =>
        ⟨[loadingHtml, errorHtml], some url, false, true, none⟩
      | .resolve _ .jsonNull =>
        ⟨[loadingHtml, errorHtml], some url, false, true, none⟩
      | .resolve _ .jsonOther =>
        ⟨[loadingHtml, errorHtml], some url, false, true, none⟩
      | .resolve _ (.jsonStr s) =>
        if s.length = 0 then
          ⟨[loadingHtml, emptyHtml], some url, false, false, none⟩
        else
          ⟨[loadingHtml, errorHtml], some url, false, true, none⟩
      | .resolve _ (.jsonArr elems) =>
        if elems.length = 0 then
          ⟨[loadingHtml, emptyHtml], some url, false, false, none⟩
        else
          match allOk elems with
          | none => ⟨[loadingHtml, errorHtml], some url, false, true, none⟩
          | some ws =>
            ⟨[loadingHtml, renderAll ws], some url, false, false,
              some elems.length⟩

/-- Substring relation on strings, via the infix relation on the
underlying character lists. -/
def strHas (s pat : String) : Prop := pat.data <:+: s.data

instance (s pat : String) : Decidable (strHas s pat) := by
  unfold strHas; exact List.decidableInfix pat.data s.data

/-- The integer-arithmetic rounding function agrees with
`⌊q + 1/2⌋`, the mathematical specification of `Math.round`. -/
theorem jsRound_eq_floor (q : ℚ) : jsRound q = ⌊q + 1/2⌋ := by
  have hden : ((q.den : ℚ)) ≠ 0 := by
    exact_mod_cast q.den_nz
  have h1 : q + 1/2 = ((2 * q.num + (q.den : ℤ) : ℤ) : ℚ) / ((2 * q.den : ℕ) : ℚ) := by
    conv_lhs => rw [← Rat.num_div_den q]
    push_cast
    field_simp
    ring
  have h2 : ⌊q + 1/2⌋ = (2 * q.num + (q.den : ℤ)) / ((2 * q.den : ℕ) : ℤ) := by
    rw [h1, Rat.floor_intCast_div_natCast]
  rw [h2, jsRound, Int.fdiv_eq_ediv]
  · push_cast; ring_nf
  · positivity

/-- A list of well-formed elements extracts to exactly its workouts. -/
theorem allOk_map_ok (ws : List Workout) :
    allOk (ws.map ArrElem.ok) = some ws := by
  induction ws with
  | nil => rfl
  | cons w rest ih => simp [allOk, ih]

/-- A list extracted from well-formed elements has the length of the
element list. -/
theorem allOk_length {elems : List ArrElem} {ws : List Workout}
    (h : allOk elems = some ws) : ws.length = elems.length := by
  induction elems generalizing ws with
  | nil => simp [allOk] at h; simp [← h]
  | cons e rest ih =>
    cases e with
    | ok w =>
      simp [allOk, Option.map_eq_some'] at h
      obtain ⟨ws2, hws2, rfl⟩ := h
      simp [ih hws2]
    | malformed => simp [allOk] at h

/-- A string has length zero exactly when it is the empty string. -/
theorem strLength_eq_zero {s : String} : s.length = 0 ↔ s = "" := by
  constructor
  · intro h
    have hd : s.data = [] := List.length_eq_zero.mp h
    exact String.ext (by rw [hd])
  · intro h
    rw [h]
    rfl

/-- Substring containment is reflexive. -/
theorem strHas_self (s : String) : strHas s s := ⟨[], [], by simp⟩

/-- Substring containment survives appending on the right. -/
theorem strHas_appendl {s pat : String} (t : String) (h : strHas s pat) :
    strHas (s ++ t) pat := by
  obtain ⟨u, v, huv⟩ := h
  exact ⟨u, v ++ t.data, by rw [String.data_append, ← huv]; simp⟩

/-- Substring containment survives appending on the left. -/
theorem strHas_appendr {s pat : String} (t : String) (h : strHas s pat) :
    strHas (t ++ s) pat := by
  obtain ⟨u, v, huv⟩ := h
  exact ⟨t.data ++ u, v, by rw [String.data_append, ← huv]; simp⟩

/-- Substring containment is transitive through an intermediate string. -/
theorem strHas_trans {big mid pat : String} (h1 : strHas mid pat)
    (h2 : strHas big mid) : strHas big pat :=
  List.IsInfix.trans h1 h2

/-- A member of a string list is contained in the concatenation of the
list. -/
theorem strHas_concatAll {s : String} : ∀ {l : List String}, s ∈ l →
    strHas (concatAll l) s
  | [], h => absurd h (List.not_mem_nil s)
  | t :: rest, h => by
    rcases List.mem_cons.mp h with h | h
    · subst h; exact strHas_appendl (concatAll rest) (strHas_self s)
    · exact strHas_appendr t (strHas_concatAll h)

/-- The card of a workout in the list is contained in the full rendered
markup. -/
theorem strHas_renderAll {w : Workout} {ws : List Workout} (h : w ∈ ws) :
    strHas (renderAll ws) (renderWorkout w) :=
  strHas_concatAll (List.mem_map_of_mem renderWorkout h)

/-- A string split as `a ++ pat ++ b` contains `pat`. -/
theorem strHas_of_eq {s a pat b : String} (h : s = a ++ pat ++ b) :
    strHas s pat :=
  ⟨a.data, b.data, by rw [h]; simp [String.data_append]⟩

/-- The interpolated exercise name occurs in the exercise tag. -/
theorem renderExercise_has_name (ex : Exercise) :
    strHas (renderExercise ex) ex.name :=
  strHas_of_eq (a := exPart1)
    (b := exPart2 ++ toString ex.num_sets ++ exPart3 ++
      ratToJsStr ex.max_weight ++ exPart4 ++ toString ex.total_reps ++ exPart5)
    (by simp [renderExercise, String.append_assoc])

/-- The interpolated set count occurs in the exercise tag. -/
theorem renderExercise_has_sets (ex : Exercise) :
    strHas (renderExercise ex) (toString ex.num_sets) :=
  strHas_of_eq (a := exPart1 ++ ex.name ++ exPart2)
    (b := exPart3 ++ ratToJsStr ex.max_weight ++ exPart4 ++
      toString ex.total_reps ++ exPart5)
    (by simp [renderExercise, String.append_assoc])

/-- The interpolated maximum weight occurs, unrounded, in the exercise
tag. -/
theorem renderExercise_has_max_weight (ex : Exercise) :
    strHas (renderExercise ex) (ratToJsStr ex.max_weight) :=
  strHas_of_eq (a := exPart1 ++ ex.name ++ exPart2 ++ toString ex.num_sets ++ exPart3)
    (b := exPart4 ++ toString ex.total_reps ++ exPart5)
    (by simp [renderExercise, String.append_assoc])

/-- The interpolated total-rep count occurs in the exercise tag. -/
theorem renderExercise_has_reps (ex : Exercise) :
    strHas (renderExercise ex) (toString ex.total_reps) :=
  strHas_of_eq (a := exPart1 ++ ex.name ++ exPart2 ++ toString ex.num_sets ++
      exPart3 ++ ratToJsStr ex.max_weight ++ exPart4)
    (b := exPart5)
    (by simp [renderExercise, String.append_assoc])

/-- The interpolated exercise count occurs in the workout card. -/
theorem renderWorkout_has_num_exercises (w : Workout) :
    strHas (renderWorkout w) (toString w.num_exercises) :=
  strHas_of_eq (a := cardPart1 ++ formatDate w.workout_date ++ cardPart2)
    (b := cardPart3 ++ toString (jsRound w.total_volume) ++ cardPart4 ++
      concatAll (w.exercises.map renderExercise) ++ cardPart5)
    (by simp [renderWorkout, String.append_assoc])

/-- The rounded total volume occurs in the workout card. -/
theorem renderWorkout_has_volume (w : Workout) :
    strHas (renderWorkout w) (toString (jsRound w.total_volume)) :=
  strHas_of_eq (a := cardPart1 ++ formatDate w.workout_date ++ cardPart2 ++
      toString w.num_exercises ++ cardPart3)
    (b := cardPart4 ++ concatAll (w.exercises.map renderExercise) ++ cardPart5)
    (by simp [renderWorkout, String.append_assoc])

/-- The tag of each exercise of a workout occurs in the workout card. -/
theorem renderWorkout_has_exercise {w : Workout} {ex : Exercise}
    (hex : ex ∈ w.exercises) :
    strHas (renderWorkout w) (renderExercise ex) :=
  strHas_trans (strHas_concatAll (List.mem_map_of_mem renderExercise hex))
    (strHas_of_eq (a := cardPart1 ++ formatDate w.workout_date ++ cardPart2 ++
        toString w.num_exercises ++ cardPart3 ++ toString (jsRound w.total_volume) ++
        cardPart4)
      (b := cardPart5)
      (by simp [renderWorkout, String.append_assoc]))

/-- C1: for every non-empty array of workout records returned by the
endpoint, `loadWorkouts` replaces the display region with exactly one
rendered card per array element (the written markup is the concatenation
of the per-element cards, one card per element), and the cards appear in
the same order as the elements of the input array (the i-th card is the
rendering of the i-th workout). -/
theorem loadWorkouts_one_card_per_workout_in_order
    (env : Env) (v : String) (st : ℕ) (ws : List Workout)
    (hu : env.userFilter = some v) (hw : env.workoutListExists = true)
    (hf : env.fetchOutcome = .resolve st (.jsonArr (ws.map ArrElem.ok)))
    (hne : ws ≠ []) :
    (loadWorkouts env).writes = [loadingHtml, concatAll (ws.map renderWorkout)] ∧
      (ws.map renderWorkout).length = ws.length ∧
      ∀ (i : ℕ) (h1 : i < ws.length) (h2 : i < (ws.map renderWorkout).length),
        (ws.map renderWorkout).get ⟨i, h2⟩ = renderWorkout (ws.get ⟨i, h1⟩) := by
  refine ⟨?_, List.length_map ws renderWorkout, ?_⟩
  · simp [loadWorkouts, hu, hw, hf, hne, allOk_map_ok, renderAll]
  · intro i h1 h2
    simp [List.get_eq_getElem, List.getElem_map]

/-- Witness for C1 at a concrete one-element response. -/
theorem loadWorkouts_one_card_per_workout_in_order_witness :
    (loadWorkouts ⟨some "", true, "",
        .resolve 200 (.jsonArr [.ok ⟨"2024-01-10", 2, mkRat 1000 1,
          [⟨"Squat", 3, mkRat 200 1, 15⟩, ⟨"Bench", 3, mkRat 150 1, 18⟩]⟩])⟩).writes =
      [loadingHtml, concatAll
        ([(⟨"2024-01-10", 2, mkRat 1000 1,
          [⟨"Squat", 3, mkRat 200 1, 15⟩, ⟨"Bench", 3, mkRat 150 1, 18⟩]⟩ :
            Workout)].map renderWorkout)] :=
  (loadWorkouts_one_card_per_workout_in_order _ "" 200
    [⟨"2024-01-10", 2, mkRat 1000 1,
      [⟨"Squat", 3, mkRat 200 1, 15⟩, ⟨"Bench", 3, mkRat 150 1, 18⟩]⟩]
    rfl rfl rfl (by decide)).1

/-- C2 counterexample: when the `workoutList` element is absent, the fault
of the innerHTML assignment at line 19 occurs before the `try` block; the
invocation propagates the fault (`faulted = true`), nothing is logged by
the catch block, and the display region is never written — in particular
it is not replaced with the error message. -/
theorem missing_dom_fault_propagates :
    (loadWorkouts ⟨some "", false, "", .reject⟩).faulted = true ∧
      (loadWorkouts ⟨some "", false, "", .reject⟩).writes = [] ∧
      (loadWorkouts ⟨some "", false, "", .reject⟩).errorLogged = false := by
  decide

/-- C2 (amended): every fault arising inside the protected region of
`loadWorkouts` — a rejected fetch; a non-JSON response body; a JSON body
that is null, a number, a boolean, an object without a length member, or
a non-empty string; or a JSON array containing a malformed record whose
rendering throws — is caught at the single outer boundary and never
propagates; on such a fault the display region is replaced with the
generic error message, which contains neither card nor empty-state markup,
and the fault is logged.  Faults of the two DOM element lookups occur
before the protected region and are not caught. -/
theorem caught_faults_show_error_message (env : Env) (v : String)
    (hu : env.userFilter = some v) (hw : env.workoutListExists = true)
    (hf : env.fetchOutcome = .reject ∨
      (∃ st, env.fetchOutcome = .resolve st .parseFail) ∨
      (∃ st, env.fetchOutcome = .resolve st .jsonNull) ∨
      (∃ st, env.fetchOutcome = .resolve st .jsonOther) ∨
      (∃ st s, s ≠ "" ∧ env.fetchOutcome = .resolve st (.jsonStr s)) ∨
      (∃ st elems, allOk elems = none ∧
        env.fetchOutcome = .resolve st (.jsonArr elems))) :
    (loadWorkouts env).writes = [loadingHtml, errorHtml] ∧
      (loadWorkouts env).faulted = false ∧
      (loadWorkouts env).errorLogged = true ∧
      ¬ strHas errorHtml "workout-card" ∧
      ¬ strHas errorHtml "No workouts found" := by
  have main : (loadWorkouts env).writes = [loadingHtml, errorHtml] ∧
      (loadWorkouts env).faulted = false ∧
      (loadWorkouts env).errorLogged = true := by
    rcases hf with hf | ⟨st, hf⟩ | ⟨st, hf⟩ | ⟨st, hf⟩ |
        ⟨st, s, hs, hf⟩ | ⟨st, elems, hok, hf⟩
    · simp [loadWorkouts, hu, hw, hf]
    · simp [loadWorkouts, hu, hw, hf]
    · simp [loadWorkouts, hu, hw, hf]
    · simp [loadWorkouts, hu, hw, hf]
    · have hsl : s.length ≠ 0 := fun h => hs (strLength_eq_zero.mp h)
      simp [loadWorkouts, hu, hw, hf, hsl]
    · have hel : elems.length ≠ 0 := by
        intro h
        rw [List.length_eq_zero.mp h] at hok
        simp [allOk] at hok
      simp [loadWorkouts, hu, hw, hf, hel, hok]
  exact ⟨main.1, main.2.1, main.2.2, by decide, by decide⟩

/-- Witness for C2 (amended) at a concrete rejected fetch. -/
theorem caught_faults_show_error_message_witness :
    (loadWorkouts ⟨some "", true, "", .reject⟩).writes =
        [loadingHtml, errorHtml] ∧
      (loadWorkouts ⟨some "", true, "", .reject⟩).faulted = false :=
  ⟨(caught_faults_show_error_message ⟨some "", true, "", .reject⟩ "" rfl rfl
      (Or.inl rfl)).1,
    (caught_faults_show_error_message ⟨some "", true, "", .reject⟩ "" rfl rfl
      (Or.inl rfl)).2.1⟩

/-- C3: with a non-empty filter value the GET request goes to the base
endpoint with `user_id` equal to the value concatenated verbatim (no
escaping); with the empty value the request goes to the bare base
endpoint. -/
theorem request_url_filter (env : Env) (v : String)
    (hu : env.userFilter = some v) (hw : env.workoutListExists = true) :
    (v ≠ "" → (loadWorkouts env).requested =
        some (baseUrl ++ "?user_id=" ++ v)) ∧
      (v = "" → (loadWorkouts env).requested = some baseUrl) := by
  have main : (loadWorkouts env).requested =
      some (if v ≠ "" then baseUrl ++ "?user_id=" ++ v else baseUrl) := by
    rcases hfo : env.fetchOutcome with _ | ⟨st, b⟩
    · simp [loadWorkouts, hu, hw, hfo]
    · rcases b with _ | elems | s | _ | _
      · simp [loadWorkouts, hu, hw, hfo]
      · by_cases hl : elems.length = 0
        · simp [loadWorkouts, hu, hw, hfo, hl]
        · rcases hok : allOk elems with _ | ws <;>
            simp [loadWorkouts, hu, hw, hfo, hl, hok]
      · by_cases hl : s.length = 0 <;> simp [loadWorkouts, hu, hw, hfo, hl]
      · simp [loadWorkouts, hu, hw, hfo]
      · simp [loadWorkouts, hu, hw, hfo]
  constructor <;> intro h <;> simp [main, h]

/-- Witness for C3: a filter value containing unescaped URL
metacharacters is inserted verbatim, and the empty value yields the bare
endpoint. -/
theorem request_url_filter_witness :
    (loadWorkouts ⟨some "alice&x=1", true, "", .reject⟩).requested =
        some (baseUrl ++ "?user_id=" ++ "alice&x=1") ∧
      (loadWorkouts ⟨some "", true, "", .reject⟩).requested = some baseUrl :=
  ⟨(request_url_filter ⟨some "alice&x=1", true, "", .reject⟩ "alice&x=1"
      rfl rfl).1 (by decide),
    (request_url_filter ⟨some "", true, "", .reject⟩ "" rfl rfl).2 rfl⟩

/-- C4: an empty JSON array response replaces the display region with the
literal no-workouts message, which contains no card markup, and the
function returns without rendering (the success log after the render is
never reached). -/
theorem empty_array_shows_empty_state (env : Env) (v : String) (st : ℕ)
    (hu : env.userFilter = some v) (hw : env.workoutListExists = true)
    (hf : env.fetchOutcome = .resolve st (.jsonArr [])) :
    (loadWorkouts env).writes = [loadingHtml, emptyHtml] ∧
      strHas emptyHtml "No workouts found" ∧
      ¬ strHas emptyHtml "workout-card" ∧
      (loadWorkouts env).infoLogged = none := by
  refine ⟨?_, by decide, by decide, ?_⟩ <;> simp [loadWorkouts, hu, hw, hf]

/-- Witness for C4 at a concrete empty response. -/
theorem empty_array_shows_empty_state_witness :
    (loadWorkouts ⟨some "", true, "", .resolve 200 (.jsonArr [])⟩).writes =
        [loadingHtml, emptyHtml] ∧
      strHas emptyHtml "No workouts found" :=
  ⟨(empty_array_shows_empty_state ⟨some "", true, "",
        .resolve 200 (.jsonArr [])⟩ "" 200 rfl rfl rfl).1,
    (empty_array_shows_empty_state ⟨some "", true, "",
        .resolve 200 (.jsonArr [])⟩ "" 200 rfl rfl rfl).2.1⟩

/-- C5: every rendered card displays the total volume rounded by
`Math.round`, which rounds to the nearest integer (the displayed integer
differs from the volume by at most one half), while each exercise's
maximum weight is interpolated as-is with no rounding. -/
theorem card_rounds_volume_not_max_weight (w : Workout) (ex : Exercise)
    (hex : ex ∈ w.exercises) :
    strHas (renderWorkout w) (toString (jsRound w.total_volume)) ∧
      strHas (renderWorkout w) (ratToJsStr ex.max_weight) ∧
      |(jsRound w.total_volume : ℚ) - w.total_volume| ≤ 1/2 := by
  refine ⟨renderWorkout_has_volume w,
    strHas_trans (renderExercise_has_max_weight ex)
      (renderWorkout_has_exercise hex), ?_⟩
  rw [jsRound_eq_floor]
  have h1 := Int.floor_le (w.total_volume + 1/2)
  have h2 := Int.lt_floor_add_one (w.total_volume + 1/2)
  rw [abs_le]
  constructor <;> push_cast at h1 h2 ⊢ <;> linarith

/-- Witness for C5: a workout with volume 245.6 displays 246, and an
exercise with maximum weight 152.5 displays 152.5 unrounded. -/
theorem card_rounds_volume_not_max_weight_witness :
    strHas (renderWorkout ⟨"2024-03-15", 1, mkRat 1228 5,
        [⟨"Bench", 3, mkRat 305 2, 18⟩]⟩) "246" ∧
      strHas (renderWorkout ⟨"2024-03-15", 1, mkRat 1228 5,
        [⟨"Bench", 3, mkRat 305 2, 18⟩]⟩) "152.5" := by
  have h := card_rounds_volume_not_max_weight
    ⟨"2024-03-15", 1, mkRat 1228 5, [⟨"Bench", 3, mkRat 305 2, 18⟩]⟩
    ⟨"Bench", 3, mkRat 305 2, 18⟩ (by decide)
  have e1 : toString (jsRound (mkRat 1228 5)) = "246" := by decide
  have e2 : ratToJsStr (mkRat 305 2) = "152.5" := by decide
  exact ⟨e1 ▸ h.1, e2 ▸ h.2.1⟩

/-- C6: with the two DOM elements present, every invocation first writes
the loading placeholder (the first recorded write), issues the network
request, and terminates with the display region holding exactly one of the
three final states — card markup for a non-empty array, the empty-state
message, or the error message; and the behaviour of the invocation is
independent of whatever the display region held before (the sequence is
re-entered from any prior state). -/
theorem load_sequence_loading_then_final (env : Env) (v : String)
    (hu : env.userFilter = some v) (hw : env.workoutListExists = true) :
    (∃ final, (loadWorkouts env).writes = [loadingHtml, final] ∧
        (loadWorkouts env).requested.isSome = true ∧
        (final = errorHtml ∨ final = emptyHtml ∨
          ∃ ws, ws ≠ [] ∧ final = renderAll ws)) ∧
      ∀ p, loadWorkouts {env with priorDisplay := p} = loadWorkouts env := by
  constructor
  · rcases hfo : env.fetchOutcome with _ | ⟨st, b⟩
    · exact ⟨errorHtml, by simp [loadWorkouts, hu, hw, hfo],
        by simp [loadWorkouts, hu, hw, hfo], Or.inl rfl⟩
    · rcases b with _ | elems | s | _ | _
      · exact ⟨errorHtml, by simp [loadWorkouts, hu, hw, hfo],
          by simp [loadWorkouts, hu, hw, hfo], Or.inl rfl⟩
      · by_cases hl : elems.length = 0
        · exact ⟨emptyHtml, by simp [loadWorkouts, hu, hw, hfo, hl],
            by simp [loadWorkouts, hu, hw, hfo, hl], Or.inr (Or.inl rfl)⟩
        · rcases hok : allOk elems with _ | ws
          · exact ⟨errorHtml, by simp [loadWorkouts, hu, hw, hfo, hl, hok],
              by simp [loadWorkouts, hu, hw, hfo, hl, hok], Or.inl rfl⟩
          · refine ⟨renderAll ws, by simp [loadWorkouts, hu, hw, hfo, hl, hok],
              by simp [loadWorkouts, hu, hw, hfo, hl, hok],
              Or.inr (Or.inr ⟨ws, ?_, rfl⟩)⟩
            intro h
            rw [h] at hok
            exact hl ((allOk_length hok).symm.trans rfl)
      · by_cases hl : s.length = 0
        · exact ⟨emptyHtml, by simp [loadWorkouts, hu, hw, hfo, hl],
            by simp [loadWorkouts, hu, hw, hfo, hl], Or.inr (Or.inl rfl)⟩
        · exact ⟨errorHtml, by simp [loadWorkouts, hu, hw, hfo, hl],
            by simp [loadWorkouts, hu, hw, hfo, hl], Or.inl rfl⟩
      · exact ⟨errorHtml, by simp [loadWorkouts, hu, hw, hfo],
          by simp [loadWorkouts, hu, hw, hfo], Or.inl rfl⟩
      · exact ⟨errorHtml, by simp [loadWorkouts, hu, hw, hfo],
          by simp [loadWorkouts, hu, hw, hfo], Or.inl rfl⟩
  · intro p
    rcases env with ⟨uf, wl, pd, fo⟩
    rfl

/-- Witness for C6 at a concrete rejected fetch. -/
theorem load_sequence_loading_then_final_witness :
    ∃ final, (loadWorkouts ⟨some "", true, "", .reject⟩).writes =
        [loadingHtml, final] ∧
      (loadWorkouts ⟨some "", true, "", .reject⟩).requested.isSome = true ∧
      (final = errorHtml ∨ final = emptyHtml ∨
        ∃ ws, ws ≠ [] ∧ final = renderAll ws) :=
  (load_sequence_loading_then_final ⟨some "", true, "", .reject⟩ "" rfl rfl).1

/-- C7: `formatDate` is a total function on strings — the embedding
returns a string for every input — and an input the platform date parser
rejects yields the literal platform invalid-date text rather than a
fault. -/
theorem formatDate_total_invalid_text (s : String) :
    (jsDateParse s = none → formatDate s = "Invalid Date") ∧
      ∀ y m d, jsDateParse s = some (y, m, d) →
        formatDate s = formatCivil y m d := by
  constructor
  · intro h; simp [formatDate, h]
  · intro y m d h; simp [formatDate, h]

/-- Witness for C7 at a concrete unparsable input. -/
theorem formatDate_total_invalid_text_witness :
    jsDateParse "not a date" = none ∧
      formatDate "not a date" = "Invalid Date" :=
  ⟨by decide, (formatDate_total_invalid_text "not a date").1 (by decide)⟩

/-- C8: for every parsable date string the formatted result contains the
abbreviated weekday of that calendar date, its abbreviated month, its
numeric day and its full numeric year, under the fixed en-US
convention. -/
theorem formatDate_contains_date_fields (s : String) (y m d : ℕ)
    (h : jsDateParse s = some (y, m, d)) :
    strHas (formatDate s) (weekdayShort (dayOfWeek y m d)) ∧
      strHas (formatDate s) (monthShort m) ∧
      strHas (formatDate s) (toString d) ∧
      strHas (formatDate s) (toString y) := by
  have hf : formatDate s = formatCivil y m d := by simp [formatDate, h]
  rw [hf]
  refine ⟨?_, ?_, ?_, ?_⟩
  · exact strHas_of_eq (a := "")
      (b := ", " ++ monthShort m ++ " " ++ toString d ++ ", " ++ toString y)
      (by simp [formatCivil, String.append_assoc])
  · exact strHas_of_eq (a := weekdayShort (dayOfWeek y m d) ++ ", ")
      (b := " " ++ toString d ++ ", " ++ toString y)
      (by simp [formatCivil, String.append_assoc])
  · exact strHas_of_eq
      (a := weekdayShort (dayOfWeek y m d) ++ ", " ++ monthShort m ++ " ")
      (b := ", " ++ toString y)
      (by simp [formatCivil, String.append_assoc])
  · exact strHas_of_eq
      (a := weekdayShort (dayOfWeek y m d) ++ ", " ++ monthShort m ++ " " ++
        toString d ++ ", ")
      (b := "")
      (by simp [formatCivil, String.append_assoc])

/-- Witness for C8: the ISO date string 2024-03-15 formats to a string
containing Fri, Mar, 15 and 2024 (2024-03-15 was a Friday). -/
theorem formatDate_contains_date_fields_witness :
    strHas (formatDate "2024-03-15") "Fri" ∧
      strHas (formatDate "2024-03-15") "Mar" ∧
      strHas (formatDate "2024-03-15") "15" ∧
      strHas (formatDate "2024-03-15") "2024" := by
  have h := formatDate_contains_date_fields "2024-03-15" 2024 3 15 (by decide)
  have e1 : weekdayShort (dayOfWeek 2024 3 15) = "Fri" := by decide
  have e2 : monthShort 3 = "Mar" := by decide
  have e3 : toString (15 : ℕ) = "15" := by decide
  have e4 : toString (2024 : ℕ) = "2024" := by decide
  exact ⟨e1 ▸ h.1, e2 ▸ h.2.1, e3 ▸ h.2.2.1, e4 ▸ h.2.2.2⟩

/-- C10: every server field value — exercise name, set count, maximum
weight, rep count and exercise count — is interpolated verbatim, with no
HTML escaping, into the markup written to the display region: its string
form occurs character-for-character in the written markup, whatever
markup characters it contains. -/
theorem field_values_interpolated_verbatim (env : Env) (v : String) (st : ℕ)
    (ws : List Workout) (w : Workout) (ex : Exercise)
    (hu : env.userFilter = some v) (hwl : env.workoutListExists = true)
    (hf : env.fetchOutcome = .resolve st (.jsonArr (ws.map ArrElem.ok)))
    (hw : w ∈ ws) (hex : ex ∈ w.exercises) :
    (loadWorkouts env).writes = [loadingHtml, renderAll ws] ∧
      strHas (renderAll ws) ex.name ∧
      strHas (renderAll ws) (toString ex.num_sets) ∧
      strHas (renderAll ws) (ratToJsStr ex.max_weight) ∧
      strHas (renderAll ws) (toString ex.total_reps) ∧
      strHas (renderAll ws) (toString w.num_exercises) := by
  have hne : ws ≠ [] := List.ne_nil_of_mem hw
  have hcard := strHas_renderAll hw
  have hexin := renderWorkout_has_exercise hex
  refine ⟨by simp [loadWorkouts, hu, hwl, hf, hne, allOk_map_ok],
    ?_, ?_, ?_, ?_, ?_⟩
  · exact strHas_trans (strHas_trans (renderExercise_has_name ex) hexin) hcard
  · exact strHas_trans (strHas_trans (renderExercise_has_sets ex) hexin) hcard
  · exact strHas_trans (strHas_trans (renderExercise_has_max_weight ex) hexin)
      hcard
  · exact strHas_trans (strHas_trans (renderExercise_has_reps ex) hexin) hcard
  · exact strHas_trans (renderWorkout_has_num_exercises w) hcard

/-- Witness for C10: a name containing markup characters appears verbatim
in the rendered markup. -/
theorem field_values_interpolated_verbatim_witness :
    strHas (renderAll [⟨"2024-01-10", 1, mkRat 100 1,
        [⟨"<script>alert(1)</script>", 3, mkRat 50 1, 15⟩]⟩])
      "<script>alert(1)</script>" := by
  have h := field_values_interpolated_verbatim
    ⟨some "", true, "", .resolve 200 (.jsonArr [.ok ⟨"2024-01-10", 1,
      mkRat 100 1, [⟨"<script>alert(1)</script>", 3, mkRat 50 1, 15⟩]⟩])⟩
    "" 200 [⟨"2024-01-10", 1, mkRat 100 1,
      [⟨"<script>alert(1)</script>", 3, mkRat 50 1, 15⟩]⟩]
    ⟨"2024-01-10", 1, mkRat 100 1,
      [⟨"<script>alert(1)</script>", 3, mkRat 50 1, 15⟩]⟩
    ⟨"<script>alert(1)</script>", 3, mkRat 50 1, 15⟩
    rfl rfl rfl (by decide) (by decide)
  exact h.2.1
